import Mathlib

/-!
Verification development for the PennApps ledger demo.

The definitions below are shallow embeddings of the TypeScript sources:
* `CryptoLab` embeds `my-app/src/lib/blockchain.ts` (the digest engine,
  appended to `INTEGRATION_README.md`) and the chain handlers of
  `my-app/src/app/page.tsx`.  TypeScript `number`s are modelled as reals.
* `RealBlockchain` embeds the event client of
  `frontend/src/lib/realBlockchain.ts` (snapshot cache, listener fan-out,
  reconnect counter) over exact rationals.
* `EcoCoins` embeds the transaction validation of `lib/transactions.ts`
  and the verification-job bookkeeping of `lib/blockchain.ts`
  (`BlockchainVerificationService`).
-/

set_option maxHeartbeats 1000000

namespace RealBlockchain

/-- The `type` discriminator of `BlockchainEvent` in `realBlockchain.ts`. -/
inductive EventType where
  | state
  | chal
  | witness
  | commit
  | skip
  deriving DecidableEq, Repr

/-- Embeds `BackendTransaction` from `realBlockchain.ts`; `amt` is a TS number,
modelled as an exact rational.  The source field `to` is a Lean keyword and
is rendered as `toAddr`. -/
structure BackendTransaction where
  from_addr : Option String
  toAddr : String
  amt : ℚ
  deriving DecidableEq, Repr

/-- Embeds `BlockchainState` from `realBlockchain.ts` (the cached snapshot). -/
structure BlockchainState where
  round : ℚ
  leader : ℚ
  blockHeight : ℚ
  balances : List (String × ℚ)
  mempool : List BackendTransaction
  ports : List String
  threshold : ℚ
  deriving DecidableEq, Repr

/-- Embeds `BlockchainEvent` from `realBlockchain.ts`: every field apart from the
discriminator is optional. -/
structure BlockchainEvent where
  type : EventType
  round : Option ℚ
  leader : Option ℚ
  seed : Option ℚ
  durMs : Option ℚ
  node : Option ℚ
  corr : Option ℚ
  includedTx : Option (List BackendTransaction)
  balances : Option (List (String × ℚ))
  blockHeight : Option ℚ
  mempool : Option (List BackendTransaction)
  ports : Option (List String)
  threshold : Option ℚ
  deriving DecidableEq, Repr

/-- JavaScript `x || d` for an optional numeric field: a missing field and
the (falsy) value `0` both fall back to the default. -/
def jsNumOr (field : Option ℚ) (default : ℚ) : ℚ :=
  match field with
  | none => default
  | some v => if v = 0 then default else v

/-- Embeds `RealBlockchainService.handleEvent`, restricted to its effect on the
cached `currentState`: a `state` event rebuilds the snapshot from the event
alone (`event.field || default`); any other event leaves the cache as is.
Arrays and objects are only defaulted when absent (`{}` and `[]` are truthy). -/
def handleEvent (currentState : Option BlockchainState) (event : BlockchainEvent) :
    Option BlockchainState :=
  if event.type = EventType.state then
    some
      { round := jsNumOr event.round 0
        leader := jsNumOr event.leader 0
        blockHeight := jsNumOr event.blockHeight 0
        balances := event.balances.getD []
        mempool := event.mempool.getD []
        ports := event.ports.getD []
        threshold := jsNumOr event.threshold 0.6 }
  else currentState

/-- A registered listener callback, abstracted by an identifier and by
whether invoking it throws. -/
structure Handler where
  id : ℕ
  throws : Bool
  deriving DecidableEq, Repr

/-- Embeds `RealBlockchainService.addEventListener`: pushes the callback at the end
of the per-kind listener array. -/
def addEventListener (listeners : List Handler) (callback : Handler) : List Handler :=
  listeners ++ [callback]

/-- Embeds `RealBlockchainService.emit`, which runs `listeners.forEach(cb => cb(event))`.
`forEach` invokes the callbacks in array order and an exception thrown by a
callback propagates at once, ending the iteration.  The result records the
ids of the callbacks that were invoked and whether an exception escaped. -/
def emitRun : List Handler → List ℕ × Bool
  | [] => ([], false)
  | h :: rest =>
    if h.throws then ([h.id], true)
    else
      let r := emitRun rest
      (h.id :: r.1, r.2)

/-- Embeds `maxReconnectAttempts` in `RealBlockchainService`. -/
def maxReconnectAttempts : ℕ := 5

/-- Embeds `reconnectDelay` (ms) in `RealBlockchainService`. -/
def reconnectDelay : ℕ := 1000

/-- Embeds `RealBlockchainService.attemptReconnect`, acting on the
`reconnectAttempts` counter: below the cap it increments the counter and
schedules a retry after `reconnectDelay * reconnectAttempts` (with the
incremented counter); at the cap it schedules nothing. -/
def attemptReconnect (reconnectAttempts : ℕ) : ℕ × Option ℕ :=
  if reconnectAttempts < maxReconnectAttempts then
    (reconnectAttempts + 1, some (reconnectDelay * (reconnectAttempts + 1)))
  else
    (reconnectAttempts, none)

/-- The `onopen` handler of `initializeWebSocket` resets
`reconnectAttempts` to `0`. -/
def onOpenReset (_reconnectAttempts : ℕ) : ℕ := 0

/-- The `reconnectAttempts` counter after `n` consecutive failed
connection attempts starting from a fresh (successfully opened) state. -/
def afterFailures : ℕ → ℕ
  | 0 => 0
  | n + 1 => (attemptReconnect (afterFailures n)).1

/-- The delay scheduled by the `n`-th consecutive reconnect attempt
(1-indexed), `none` when no retry is scheduled. -/
def nthDelay (n : ℕ) : Option ℕ := (attemptReconnect (afterFailures (n - 1))).2

end RealBlockchain

namespace EcoCoins

/-- Embeds `TransactionRequest` from `types/index.ts`; `amount` is a TS number,
modelled as an exact rational. -/
structure TransactionRequest where
  toUserEmail : String
  amount : ℚ
  deriving DecidableEq, Repr

/-- The `status` field of `Transaction` in `types/index.ts`:
`'pending' | 'verifying' | 'completed' | 'failed'`. -/
inductive TxStatus where
  | pending
  | verifying
  | completed
  | failed
  deriving DecidableEq, Repr

/-- JavaScript `Number.isInteger` on an exact rational. -/
def jsIsInteger (q : ℚ) : Bool := q.den == 1

/-- Embeds `TransactionService.validateTransactionRequest`: pushes recipient-email
errors first (`!toUserEmail`, then missing `'@'`), then walks the
`else if` chain on the amount (`!amount`, `<= 0`, `> 1000`, non-integer);
`isValid` is `errors.length === 0`. -/
def validateTransactionRequest (request : TransactionRequest) : Bool × List String :=
  let emailErrors : List String :=
    if request.toUserEmail = "" then ["Recipient email is required"]
    else if request.toUserEmail.data.contains '@' then []
    else ["Invalid email format"]
  let amountErrors : List String :=
    if request.amount = 0 then ["Amount is required"]
    else if request.amount ≤ 0 then ["Amount must be greater than 0"]
    else if 1000 < request.amount then ["Amount cannot exceed 1000 ECO Coins"]
    else if jsIsInteger request.amount then []
    else ["Amount must be a whole number"]
  let errors := emailErrors ++ amountErrors
  (errors.isEmpty, errors)

/-- Embeds `BlockchainVerificationJob` from `lib/blockchain.ts`; the
`NodeJS.Timeout` handle is abstracted by a numeric timer id. -/
structure VerificationJob where
  transactionId : String
  startTime : ℕ
  timeoutId : ℕ
  deriving DecidableEq, Repr

/-- The mutable state touched by `BlockchainVerificationService.cancelVerification`:
the `verificationJobs` map (association list with unique keys, JS `Map`
insertion order), the set of live timers, and the transaction records'
statuses kept by the database module. -/
structure VerifyWorld where
  jobs : List (String × VerificationJob)
  activeTimers : List ℕ
  transactions : List (String × TxStatus)
  deriving DecidableEq, Repr

/-- Embeds `BlockchainVerificationService.initiateVerification`, restricted to the
synchronous duplicate check and job registration: an id that is already in
`verificationJobs` is rejected with the duplicate error and the map is left
as it was; otherwise the new job is stored (JS `Map.set` appends a new key). -/
def initiateVerification (jobs : List (String × VerificationJob))
    (transactionId : String) (startTime timeoutId : ℕ) :
    Except String Unit × List (String × VerificationJob) :=
  if (jobs.lookup transactionId).isSome then
    (Except.error "Transaction is already being verified", jobs)
  else
    (Except.ok (), jobs ++ [(transactionId, ⟨transactionId, startTime, timeoutId⟩)])

/-- Embeds `BlockchainVerificationService.cancelVerification`: with no job for the
id it returns `false` and changes nothing; otherwise it clears the job's
timeout, deletes the map entry and returns `true`.  It never touches the
transaction records. -/
def cancelVerification (w : VerifyWorld) (transactionId : String) : Bool × VerifyWorld :=
  match w.jobs.lookup transactionId with
  | none => (false, w)
  | some job =>
    (true,
      { jobs := w.jobs.eraseP (fun p => p.1 == transactionId)
        activeTimers := w.activeTimers.erase job.timeoutId
        transactions := w.transactions })

end EcoCoins

namespace CryptoLab

/-- Embeds `Block` from `my-app/src/types/blockchain.ts`.  Voltages are TS
numbers, modelled as reals; `seq` is likewise a TS number. -/
structure Block where
  id : ℕ
  prevV : ℝ
  rootV : ℝ
  seq : ℝ
  digestV : ℝ
  valid : Bool

/-- Embeds `Transaction` from `my-app/src/types/blockchain.ts` (a toggleable
transaction input of the analog chain). -/
structure TxInput where
  id : String
  value : ℝ
  enabled : Bool

/-- Embeds `PolicyWindow` from `my-app/src/types/blockchain.ts`. -/
structure PolicyWindow where
  center : ℝ
  width : ℝ

/-- Embeds `clamp` from `my-app/src/lib/blockchain.ts`:
`Math.min(Math.max(value, min), max)`. -/
noncomputable def clamp (value lo hi : ℝ) : ℝ := min (max value lo) hi

/-- Embeds `calculateTxRoot`: sums the values of the enabled transactions
(`filter` + `reduce` with accumulator `0`) and clamps to `[0, 1]`. -/
noncomputable def calculateTxRoot (transactions : List TxInput) : ℝ :=
  clamp ((transactions.filter (fun tx => tx.enabled)).foldl (fun acc tx => acc + tx.value) 0) 0 1

/-- Embeds `calculateDigest`: the weighted `mix` of the inputs, shaped by two
sinusoids and clamped to `[0, 1]`.  The source's intermediate `mix`
constant is inlined. -/
noncomputable def calculateDigest (prevDigest txRoot seq policyCenter : ℝ) : ℝ :=
  clamp
    (0.5 +
      0.4 * Real.sin ((0.3 * prevDigest + 0.25 * txRoot + 0.1 * (seq / 100) +
        0.35 * policyCenter) * Real.pi * 2) +
      0.1 * Real.cos ((0.3 * prevDigest + 0.25 * txRoot + 0.1 * (seq / 100) +
        0.35 * policyCenter) * Real.pi * 4))
    0 1

/-- Embeds `isValidDigest`: membership of the digest in the closed policy window
`[clamp(center - width/2, 0, 1), clamp(center + width/2, 0, 1)]`. -/
noncomputable def isValidDigest (digest : ℝ) (policy : PolicyWindow) : Bool :=
  decide (clamp (policy.center - policy.width / 2) 0 1 ≤ digest ∧
    digest ≤ clamp (policy.center + policy.width / 2) 0 1)

/-- Embeds `verifyBlock`: recomputes the digest from the stored fields and the
current policy center and compares with the stored digest within the
tolerance.  The source's default tolerance `0.025` is passed explicitly by
the callers below. -/
noncomputable def verifyBlock (block : Block) (policyCenter tolerance : ℝ) : Bool :=
  decide (|calculateDigest block.prevV block.rootV block.seq policyCenter - block.digestV| <
    tolerance)

/-- Embeds `createGenesisBlock`: the fixed genesis constants. -/
noncomputable def createGenesisBlock : Block :=
  { id := 1, prevV := 0.42, rootV := 0.35, seq := 0, digestV := 0.50, valid := true }

/-- Embeds `createBlock`: computes the digest, evaluates the policy and assembles
the block. -/
noncomputable def createBlock (id : ℕ) (prevDigest txRoot seq policyCenter : ℝ)
    (policy : PolicyWindow) : Block :=
  { id := id
    prevV := prevDigest
    rootV := txRoot
    seq := seq
    digestV := calculateDigest prevDigest txRoot seq policyCenter
    valid := isValidDigest (calculateDigest prevDigest txRoot seq policyCenter) policy }

/-- Embeds `handleVerifyChain` from `my-app/src/app/page.tsx`: re-derives `valid`
for every block with `verifyBlock` at the default tolerance. -/
noncomputable def handleVerifyChain (blocks : List Block) (policyCenter : ℝ) : List Block :=
  blocks.map (fun block => { block with valid := verifyBlock block policyCenter 0.025 })

/-- Embeds `handleTamperBlock` from `my-app/src/app/page.tsx`: bumps the matching
block's `rootV` by `0.1`, capped at `1`, leaving every other field and
every other block alone. -/
noncomputable def handleTamperBlock (blocks : List Block) (blockId : ℕ) : List Block :=
  blocks.map (fun block =>
    if block.id = blockId then { block with rootV := min 1 (block.rootV + 0.1) } else block)

/-- The three transaction inputs of the `page.tsx` initial state, with A
and C enabled as in the end-to-end scenario. -/
noncomputable def scenarioTransactions : List TxInput :=
  [{ id := "A", value := 0.22, enabled := true },
   { id := "B", value := 0.33, enabled := false },
   { id := "C", value := 0.45, enabled := true }]

end CryptoLab

open RealBlockchain EcoCoins CryptoLab

/-- A `state` event carrying every snapshot field, used to exercise the
wholesale-replace behaviour. -/
def fullStateEvent : BlockchainEvent :=
  { type := EventType.state
    round := some 3
    leader := some 2
    seed := none
    durMs := none
    node := none
    corr := none
    includedTx := none
    balances := some [("Alice", 30), ("Bob", 70)]
    blockHeight := some 4
    mempool := some [{ from_addr := some "Alice", toAddr := "Bob", amt := 5 }]
    ports := some ["COM3"]
    threshold := some (7 / 10) }

/-- The non-integral amount 2000.5 in normal form, so that validation on it
evaluates by `decide`. -/
def halfAmount : ℚ := ⟨4001, 2, by decide, by decide⟩

/-- A follow-up `state` event that omits every field but `round`. -/
def sparseStateEvent : BlockchainEvent :=
  { type := EventType.state
    round := some 4
    leader := none
    seed := none
    durMs := none
    node := none
    corr := none
    includedTx := none
    balances := none
    blockHeight := none
    mempool := none
    ports := none
    threshold := none }

/-- C2: after two consecutive `state` events the cached snapshot is rebuilt
from the second event alone; any field the second event omits takes its
zero-value (0 for counters, empty mapping for balances, empty sequence for
the mempool), so an omitted `mempool` leaves the cache with an empty
mempool. -/
theorem c2_snapshot_wholesale_replace (c : Option BlockchainState)
    (e1 e2 : BlockchainEvent) (h : e2.type = EventType.state) :
    handleEvent (handleEvent c e1) e2 = handleEvent none e2 ∧
    (e2.round = none → (handleEvent (handleEvent c e1) e2).map BlockchainState.round = some 0) ∧
    (e2.balances = none →
      (handleEvent (handleEvent c e1) e2).map BlockchainState.balances = some []) ∧
    (e2.mempool = none →
      (handleEvent (handleEvent c e1) e2).map BlockchainState.mempool = some []) := by
  refine ⟨?_, ?_, ?_, ?_⟩
  · simp [handleEvent, h]
  · intro hr; simp [handleEvent, h, hr, jsNumOr]
  · intro hb; simp [handleEvent, h, hb]
  · intro hm; simp [handleEvent, h, hm]

/-- C2 witness: the wholesale replace evaluated on two concrete `state`
events, the second omitting the mempool. -/
theorem c2_snapshot_wholesale_replace_witness :
    handleEvent (handleEvent none fullStateEvent) sparseStateEvent =
      handleEvent none sparseStateEvent ∧
    (handleEvent (handleEvent none fullStateEvent) sparseStateEvent).map
      BlockchainState.mempool = some [] := by
  refine ⟨(c2_snapshot_wholesale_replace none fullStateEvent sparseStateEvent rfl).1, ?_⟩
  exact (c2_snapshot_wholesale_replace none fullStateEvent sparseStateEvent rfl).2.2.2 rfl

/-- C10: a `state` event with an absent acceptance threshold, or one whose
threshold is the (falsy) value 0, yields the non-zero default 0.6 in the
replacement snapshot, while the other fields default to 0 or empty. -/
theorem c10_threshold_default (c : Option BlockchainState) (e : BlockchainEvent)
    (h : e.type = EventType.state) :
    ((e.threshold = none ∨ e.threshold = some 0) →
      (handleEvent c e).map BlockchainState.threshold = some 0.6) ∧
    (e.round = none → (handleEvent c e).map BlockchainState.round = some 0) ∧
    (e.leader = none → (handleEvent c e).map BlockchainState.leader = some 0) ∧
    (e.blockHeight = none → (handleEvent c e).map BlockchainState.blockHeight = some 0) ∧
    (e.balances = none → (handleEvent c e).map BlockchainState.balances = some []) ∧
    (e.mempool = none → (handleEvent c e).map BlockchainState.mempool = some []) ∧
    (e.ports = none → (handleEvent c e).map BlockchainState.ports = some []) := by
  refine ⟨?_, ?_, ?_, ?_, ?_, ?_, ?_⟩
  · rintro (ht | ht) <;> simp [handleEvent, h, ht, jsNumOr]
  all_goals intro hf
  all_goals simp [handleEvent, h, hf, jsNumOr]

/-- C10 witness: the threshold default evaluated on a concrete `state`
event that omits every optional field. -/
theorem c10_threshold_default_witness :
    (handleEvent none sparseStateEvent).map BlockchainState.threshold = some 0.6 ∧
    (handleEvent none sparseStateEvent).map BlockchainState.leader = some 0 := by
  refine ⟨(c10_threshold_default none sparseStateEvent rfl).1 (Or.inl rfl), ?_⟩
  exact (c10_threshold_default none sparseStateEvent rfl).2.2.1 rfl

/-- C5 counterexample: with two registered handlers, the first of which
throws, the dispatch invokes only the first handler — the throwing handler
does prevent the remaining handler from running, refuting the claim. -/
theorem c5_throwing_handler_counterexample :
    (emitRun (addEventListener (addEventListener [] { id := 0, throws := true })
      { id := 1, throws := false })).1 = [0] ∧
    1 ∉ (emitRun (addEventListener (addEventListener [] { id := 0, throws := true })
      { id := 1, throws := false })).1 := by
  decide

/-- C5 (amended): dispatch runs the handlers in registration order, but a
throwing handler aborts the dispatch — exactly the handlers up to and
including the first throwing one are invoked, and the exception escapes
iff some registered handler throws. -/
theorem c5_dispatch_order_amended (listeners : List Handler) :
    (emitRun listeners).1 =
      ((listeners.takeWhile fun h => !h.throws).map Handler.id) ++
        (((listeners.dropWhile fun h => !h.throws).head?).map Handler.id).toList ∧
    (emitRun listeners).2 = listeners.any Handler.throws := by
  induction listeners with
  | nil => simp [emitRun]
  | cons h rest ih =>
    cases hth : h.throws with
    | true => simp [emitRun, hth, List.takeWhile, List.dropWhile]
    | false =>
      simp only [emitRun, hth, Bool.false_eq_true, if_false, List.takeWhile, List.dropWhile,
        Bool.not_false, List.map_cons, List.cons_append, List.any_cons, Bool.false_or]
      exact ⟨by rw [ih.1], by rw [ih.2]⟩

lemma afterFailures_eq_min (n : ℕ) : afterFailures n = min n 5 := by
  induction n with
  | zero => rfl
  | succ n ih =>
    show (attemptReconnect (afterFailures n)).1 = min (n + 1) 5
    rw [ih]
    unfold attemptReconnect maxReconnectAttempts
    split
    · simp only
      omega
    · simp only
      omega

/-- C6: the n-th consecutive automatic reconnect attempt is scheduled after
`reconnectDelay * n` (so the delays strictly increase), at most 5 attempts
are made — after the 5th consecutive failure no further retry is scheduled —
and a successful connection resets the attempt counter to 0. -/
theorem c6_reconnect_backoff :
    (∀ n : ℕ, 1 ≤ n → n ≤ 5 → nthDelay n = some (reconnectDelay * n)) ∧
    (∀ m n : ℕ, 1 ≤ m → m < n → n ≤ 5 → reconnectDelay * m < reconnectDelay * n) ∧
    (∀ n : ℕ, 5 < n → nthDelay n = none) ∧
    (∀ a : ℕ, onOpenReset a = 0) := by
  refine ⟨?_, ?_, ?_, fun a => rfl⟩
  · intro n h1 h5
    unfold nthDelay
    rw [afterFailures_eq_min, show min (n - 1) 5 = n - 1 by omega]
    unfold attemptReconnect maxReconnectAttempts
    rw [if_pos (by omega), show n - 1 + 1 = n by omega]
  · intro m n h1 hmn hn5
    rw [show reconnectDelay = 1000 from rfl]
    omega
  · intro n hn
    unfold nthDelay
    rw [afterFailures_eq_min, show min (n - 1) 5 = 5 by omega]
    rfl

lemma lookup_eq_none_of_not_mem_keys {β : Type} (l : List (String × β)) (k : String)
    (h : k ∉ l.map Prod.fst) : l.lookup k = none := by
  induction l with
  | nil => rfl
  | cons p t ih =>
    obtain ⟨a, b⟩ := p
    simp only [List.map_cons, List.mem_cons, not_or] at h
    simp [List.lookup, beq_false_of_ne h.1, ih h.2]

lemma not_mem_keys_of_lookup_eq_none {β : Type} (l : List (String × β)) (k : String)
    (h : l.lookup k = none) : k ∉ l.map Prod.fst := by
  induction l with
  | nil => simp
  | cons p t ih =>
    obtain ⟨a, b⟩ := p
    by_cases hk : k = a
    · subst hk
      simp [List.lookup] at h
    · simp only [List.lookup, beq_false_of_ne hk] at h
      simp only [List.map_cons, List.mem_cons, not_or]
      exact ⟨hk, ih h⟩

lemma lookup_eraseP_self {β : Type} (l : List (String × β)) (k : String)
    (h : (l.map Prod.fst).Nodup) :
    (l.eraseP (fun p => p.1 == k)).lookup k = none := by
  induction l with
  | nil => rfl
  | cons p t ih =>
    obtain ⟨a, b⟩ := p
    simp only [List.map_cons, List.nodup_cons] at h
    by_cases hk : a = k
    · subst hk
      rw [List.eraseP_cons_of_pos (by simp)]
      exact lookup_eq_none_of_not_mem_keys t a h.1
    · rw [List.eraseP_cons_of_neg (by simp [hk])]
      have hk' : k ≠ a := fun e => hk e.symm
      simp [List.lookup, beq_false_of_ne hk', ih h.2]

/-- C8: starting a verification job for a transaction id whose job is still
active yields the duplicate-verification error and leaves the jobs map —
in particular the existing job and its timer handle — untouched; job
registration keeps at most one job per transaction id. -/
theorem c8_duplicate_job_untouched (jobs : List (String × VerificationJob)) (txId : String)
    (startTime timeoutId : ℕ) (h : (jobs.lookup txId).isSome = true) :
    initiateVerification jobs txId startTime timeoutId =
      (Except.error "Transaction is already being verified", jobs) ∧
    (initiateVerification jobs txId startTime timeoutId).2.lookup txId = jobs.lookup txId ∧
    (∀ (jobs2 : List (String × VerificationJob)) (txId2 : String) (t2 tid2 : ℕ),
      (jobs2.map Prod.fst).Nodup →
        ((initiateVerification jobs2 txId2 t2 tid2).2.map Prod.fst).Nodup) := by
  refine ⟨?_, ?_, ?_⟩
  · unfold initiateVerification
    rw [if_pos h]
  · unfold initiateVerification
    rw [if_pos h]
  · intro jobs2 txId2 t2 tid2 hnd
    unfold initiateVerification
    by_cases h2 : (jobs2.lookup txId2).isSome = true
    · rw [if_pos h2]
      exact hnd
    · rw [if_neg h2]
      simp only [List.map_append, List.map_cons, List.map_nil]
      rw [List.nodup_append]
      refine ⟨hnd, List.nodup_singleton _, ?_⟩
      intro a ha hmem
      have ha2 : a = txId2 := by simpa using hmem
      subst ha2
      have hnone : jobs2.lookup a = none := by
        cases hl : jobs2.lookup a with
        | none => rfl
        | some v => rw [hl] at h2; simp at h2
      exact not_mem_keys_of_lookup_eq_none _ _ hnone ha

/-- C8 witness: a second start for an id that is already verifying, on a
concrete jobs map. -/
theorem c8_duplicate_job_untouched_witness :
    initiateVerification [("tx1", ⟨"tx1", 5, 99⟩)] "tx1" 7 100 =
      (Except.error "Transaction is already being verified", [("tx1", ⟨"tx1", 5, 99⟩)]) :=
  (c8_duplicate_job_untouched [("tx1", ⟨"tx1", 5, 99⟩)] "tx1" 7 100 (by decide)).1

/-- C3 counterexample: cancelling the verification of a transaction whose
status is `verifying` succeeds (returns `true`) yet leaves the stored
status exactly as it was — there is no transition to a `cancelled` status
(the status type has no such value), refuting the claim. -/
theorem c3_cancel_status_counterexample :
    (cancelVerification ⟨[("tx1", ⟨"tx1", 0, 7⟩)], [7], [("tx1", TxStatus.verifying)]⟩
      "tx1").1 = true ∧
    (cancelVerification ⟨[("tx1", ⟨"tx1", 0, 7⟩)], [7], [("tx1", TxStatus.verifying)]⟩
      "tx1").2.transactions = [("tx1", TxStatus.verifying)] := by
  decide

/-- C3 (amended): with no active job for the id, cancel returns `false`
and changes nothing; with an active job it returns `true`, stops the job's
timer and removes the job from the active map, while the transaction's
stored status is left unchanged (no `cancelled` status exists). -/
theorem c3_cancel_amended (w : VerifyWorld) (txId : String)
    (hkeys : (w.jobs.map Prod.fst).Nodup) (htimers : w.activeTimers.Nodup) :
    (w.jobs.lookup txId = none → cancelVerification w txId = (false, w)) ∧
    (∀ job, w.jobs.lookup txId = some job →
      (cancelVerification w txId).1 = true ∧
      (cancelVerification w txId).2.jobs.lookup txId = none ∧
      job.timeoutId ∉ (cancelVerification w txId).2.activeTimers ∧
      (cancelVerification w txId).2.transactions = w.transactions) := by
  constructor
  · intro hn
    unfold cancelVerification
    rw [hn]
  · intro job hj
    unfold cancelVerification
    rw [hj]
    refine ⟨rfl, ?_, ?_, rfl⟩
    · exact lookup_eraseP_self _ _ hkeys
    · exact htimers.not_mem_erase

/-- C3 witness: both branches of the amended cancel behaviour on concrete
states. -/
theorem c3_cancel_amended_witness :
    cancelVerification ⟨[], [], [("tx9", TxStatus.pending)]⟩ "tx1" =
      (false, ⟨[], [], [("tx9", TxStatus.pending)]⟩) ∧
    ((cancelVerification ⟨[("tx1", ⟨"tx1", 0, 7⟩)], [7], []⟩ "tx1").1 = true ∧
      (cancelVerification ⟨[("tx1", ⟨"tx1", 0, 7⟩)], [7], []⟩ "tx1").2.jobs.lookup "tx1" =
        none ∧
      (⟨"tx1", 0, 7⟩ : VerificationJob).timeoutId ∉
        (cancelVerification ⟨[("tx1", ⟨"tx1", 0, 7⟩)], [7], []⟩ "tx1").2.activeTimers ∧
      (cancelVerification ⟨[("tx1", ⟨"tx1", 0, 7⟩)], [7], []⟩ "tx1").2.transactions = []) :=
  ⟨(c3_cancel_amended ⟨[], [], [("tx9", TxStatus.pending)]⟩ "tx1" (by decide) (by decide)).1
      rfl,
   (c3_cancel_amended ⟨[("tx1", ⟨"tx1", 0, 7⟩)], [7], []⟩ "tx1" (by decide) (by decide)).2
      ⟨"tx1", 0, 7⟩ rfl⟩

lemma clamp_eq_self {x : ℝ} (h0 : 0 ≤ x) (h1 : x ≤ 1) : clamp x 0 1 = x := by
  unfold clamp
  rw [max_eq_left h0, min_eq_left h1]

/-- C7: tampering touches only the block whose id matches — its `rootV` is
raised by 0.1 and capped at 1 — while its other fields and every other
block of the chain (in particular every descendant's `prevV`) are
unchanged, with no cascading re-derivation. -/
theorem c7_tamper_frame (blocks : List Block) (blockId : ℕ) :
    (handleTamperBlock blocks blockId).length = blocks.length ∧
    (∀ i : ℕ, (handleTamperBlock blocks blockId)[i]? =
      (blocks[i]?).map (fun b =>
        if b.id = blockId then { b with rootV := min 1 (b.rootV + 0.1) } else b)) ∧
    (∀ i : ℕ, ((handleTamperBlock blocks blockId)[i]?).map Block.id =
      (blocks[i]?).map Block.id) ∧
    (∀ i : ℕ, ((handleTamperBlock blocks blockId)[i]?).map Block.prevV =
      (blocks[i]?).map Block.prevV) ∧
    (∀ i : ℕ, ((handleTamperBlock blocks blockId)[i]?).map Block.seq =
      (blocks[i]?).map Block.seq) ∧
    (∀ i : ℕ, ((handleTamperBlock blocks blockId)[i]?).map Block.digestV =
      (blocks[i]?).map Block.digestV) ∧
    (∀ i : ℕ, ((handleTamperBlock blocks blockId)[i]?).map Block.valid =
      (blocks[i]?).map Block.valid) ∧
    (∀ x : ℝ, min 1 (x + 0.1) ≤ 1) := by
  have key : ∀ i : ℕ, (handleTamperBlock blocks blockId)[i]? =
      (blocks[i]?).map (fun b =>
        if b.id = blockId then { b with rootV := min 1 (b.rootV + 0.1) } else b) := by
    intro i
    unfold handleTamperBlock
    exact List.getElem?_map _ _ i
  refine ⟨by simp [handleTamperBlock], key, ?_, ?_, ?_, ?_, ?_, fun x => min_le_left _ _⟩ <;>
    · intro i
      rw [key i]
      cases blocks[i]? with
      | none => rfl
      | some b => by_cases hb : b.id = blockId <;> simp [hb]

lemma isValidDigest_center_half (d : ℝ) :
    isValidDigest d ⟨0.5, 0.3⟩ = true ↔ (0.35 ≤ d ∧ d ≤ 0.65) := by
  unfold isValidDigest
  rw [decide_eq_true_eq]
  have hlo : clamp ((0.5 : ℝ) - 0.3 / 2) 0 1 = 0.35 := by
    rw [show (0.5 : ℝ) - 0.3 / 2 = 0.35 by norm_num]
    exact clamp_eq_self (by norm_num) (by norm_num)
  have hhi : clamp ((0.5 : ℝ) + 0.3 / 2) 0 1 = 0.65 := by
    rw [show (0.5 : ℝ) + 0.3 / 2 = 0.65 by norm_num]
    exact clamp_eq_self (by norm_num) (by norm_num)
  rw [hlo, hhi]

/-- C1: with head digest 0.50, enabled inputs 0.22 and 0.45 (the third
disabled), sequence 1 and policy center 0.5, the appended block's root is
`clamp(0.22+0.45, 0, 1) = 0.67`, its digest is
`clamp(0.5 + 0.4·sin(0.4935·2π) + 0.1·cos(0.4935·4π), 0, 1)` (the mix
`0.3·0.50 + 0.25·0.67 + 0.10·(1/100) + 0.35·0.5` being exactly 0.4935),
and `valid` holds iff that digest lies in the closed window [0.35, 0.65]. -/
theorem c1_end_to_end_scenario :
    calculateTxRoot scenarioTransactions = 0.67 ∧
    (createBlock 2 0.50 (calculateTxRoot scenarioTransactions) 1 0.5 ⟨0.5, 0.3⟩).rootV =
      0.67 ∧
    (createBlock 2 0.50 (calculateTxRoot scenarioTransactions) 1 0.5 ⟨0.5, 0.3⟩).digestV =
      clamp (0.5 + 0.4 * Real.sin (0.4935 * (2 * Real.pi)) +
        0.1 * Real.cos (0.4935 * (4 * Real.pi))) 0 1 ∧
    ((createBlock 2 0.50 (calculateTxRoot scenarioTransactions) 1 0.5 ⟨0.5, 0.3⟩).valid =
        true ↔
      (0.35 ≤ (createBlock 2 0.50 (calculateTxRoot scenarioTransactions) 1 0.5
          ⟨0.5, 0.3⟩).digestV ∧
        (createBlock 2 0.50 (calculateTxRoot scenarioTransactions) 1 0.5
          ⟨0.5, 0.3⟩).digestV ≤ 0.65)) := by
  have hroot : calculateTxRoot scenarioTransactions = 0.67 := by
    unfold calculateTxRoot scenarioTransactions
    simp only [List.filter, List.foldl]
    rw [show (0 : ℝ) + 0.22 + 0.45 = 0.67 by norm_num]
    exact clamp_eq_self (by norm_num) (by norm_num)
  have hdig : (createBlock 2 0.50 (calculateTxRoot scenarioTransactions) 1 0.5
      ⟨0.5, 0.3⟩).digestV =
      clamp (0.5 + 0.4 * Real.sin (0.4935 * (2 * Real.pi)) +
        0.1 * Real.cos (0.4935 * (4 * Real.pi))) 0 1 := by
    show calculateDigest 0.50 (calculateTxRoot scenarioTransactions) 1 0.5 = _
    rw [hroot]
    unfold calculateDigest
    rw [show (0.3 * (0.50 : ℝ) + 0.25 * 0.67 + 0.1 * (1 / 100) + 0.35 * 0.5) *
        Real.pi * 2 = 0.4935 * (2 * Real.pi) by ring]
    rw [show (0.3 * (0.50 : ℝ) + 0.25 * 0.67 + 0.1 * (1 / 100) + 0.35 * 0.5) *
        Real.pi * 4 = 0.4935 * (4 * Real.pi) by ring]
  refine ⟨hroot, ?_, hdig, ?_⟩
  · show calculateTxRoot scenarioTransactions = 0.67
    exact hroot
  · show isValidDigest (calculateDigest 0.50 (calculateTxRoot scenarioTransactions) 1 0.5)
        ⟨0.5, 0.3⟩ = true ↔ _
    exact isValidDigest_center_half _

lemma sin_genesis_arg_lower : (0.3125 : ℝ) ≤ Real.sin (0.223 * Real.pi) := by
  have hπl : (3.14 : ℝ) < Real.pi := Real.pi_gt_d2
  have hπu : Real.pi < (3.15 : ℝ) := Real.pi_lt_d2
  have ht0 : (0 : ℝ) < 0.223 * Real.pi := by positivity
  have htu : (0.223 : ℝ) * Real.pi ≤ 0.70245 := by nlinarith
  have ht1 : (0.223 : ℝ) * Real.pi ≤ 1 := by linarith
  have hcube := Real.sin_gt_sub_cube ht0 ht1
  have h3 : (0.223 * Real.pi) ^ 3 ≤ (0.70245 : ℝ) ^ 3 := pow_le_pow_left₀ ht0.le htu 3
  nlinarith [hcube, h3, hπl]

/-- C9: re-verifying an untouched chain invalidates genesis — the
recomputed digest for the fixed genesis constants differs from the stored
0.50 by at least the 0.025 tolerance, so `verifyBlock` rejects the genesis
block and a whole-chain re-verification flips its `valid` flag from `true`
to `false`. -/
theorem c9_reverify_invalidates_genesis :
    createGenesisBlock.valid = true ∧
    verifyBlock createGenesisBlock 0.5 0.025 = false ∧
    handleVerifyChain [createGenesisBlock] 0.5 =
      [{ createGenesisBlock with valid := false }] := by
  have hkey : (0.025 : ℝ) ≤ |calculateDigest 0.42 0.35 0 0.5 - 0.50| := by
    unfold calculateDigest
    rw [show (0.3 * (0.42 : ℝ) + 0.25 * 0.35 + 0.1 * (0 / 100) + 0.35 * 0.5) *
        Real.pi * 2 = Real.pi - 0.223 * Real.pi by ring]
    rw [Real.sin_pi_sub]
    set c := Real.cos ((0.3 * (0.42 : ℝ) + 0.25 * 0.35 + 0.1 * (0 / 100) + 0.35 * 0.5) *
      Real.pi * 4) with hc
    have hs1 := sin_genesis_arg_lower
    have hs2 := Real.sin_le_one (0.223 * Real.pi)
    have hc1 := Real.neg_one_le_cos ((0.3 * (0.42 : ℝ) + 0.25 * 0.35 + 0.1 * (0 / 100) +
      0.35 * 0.5) * Real.pi * 4)
    have hc2 := Real.cos_le_one ((0.3 * (0.42 : ℝ) + 0.25 * 0.35 + 0.1 * (0 / 100) +
      0.35 * 0.5) * Real.pi * 4)
    rw [← hc] at hc1 hc2
    rw [clamp_eq_self (by linarith) (by linarith)]
    rw [abs_of_nonneg (by linarith)]
    linarith
  have hverify : verifyBlock createGenesisBlock 0.5 0.025 = false := by
    rw [show verifyBlock createGenesisBlock 0.5 0.025 =
        decide (|calculateDigest 0.42 0.35 0 0.5 - 0.50| < 0.025) from rfl]
    exact decide_eq_false_iff_not.mpr (not_lt.mpr hkey)
  refine ⟨rfl, hverify, ?_⟩
  unfold handleVerifyChain
  rw [List.map_cons, List.map_nil, hverify]

/-- C4 counterexample: for the amount 2000.5 (true for "amount present",
violating both "amount integral" and "amount ≤ 1000") with a well-formed
recipient, validation returns a single error — the violated integrality
rule is not accumulated, refuting "returns every violated rule". -/
theorem c4_accumulation_counterexample :
    halfAmount = 4001 / 2 ∧
    (1000 : ℚ) < halfAmount ∧ jsIsInteger halfAmount = false ∧
    (validateTransactionRequest ⟨"bob@example.com", halfAmount⟩).2 =
      ["Amount cannot exceed 1000 ECO Coins"] ∧
    (validateTransactionRequest ⟨"bob@example.com", halfAmount⟩).2.length = 1 := by
  refine ⟨?_, by decide, by decide, by decide, by decide⟩
  rw [halfAmount, Rat.mk'_eq_divInt, Rat.divInt_eq_div]
  norm_num

/-- C4 (amended): validation checks the recipient email first (present,
then containing '@') and the amount second (present, > 0, ≤ 1000,
integral), reporting at most the first violated rule of each of the two
chains but accumulating across the two fields; in particular an empty
recipient together with the amount −5 yields exactly the two distinct
errors, and the request is valid iff the error list is empty. -/
theorem c4_validate_two_field_accumulation (request : TransactionRequest)
    (hmail : request.toUserEmail = "") (hamt : request.amount < 0) :
    "Recipient email is required" ∈ (validateTransactionRequest request).2 ∧
    "Amount must be greater than 0" ∈ (validateTransactionRequest request).2 ∧
    (validateTransactionRequest request).2.length = 2 ∧
    ((validateTransactionRequest request).1 = true ↔
      (validateTransactionRequest request).2 = []) := by
  have h0 : ¬ request.amount = 0 := by linarith
  have hle : request.amount ≤ 0 := le_of_lt hamt
  refine ⟨?_, ?_, ?_, ?_⟩ <;>
    simp [validateTransactionRequest, hmail, h0, hle, List.isEmpty_iff]

/-- C4 witness: the amended accumulation evaluated on the request with an
empty recipient and amount −5. -/
theorem c4_validate_two_field_accumulation_witness :
    "Recipient email is required" ∈ (validateTransactionRequest ⟨"", -5⟩).2 ∧
    "Amount must be greater than 0" ∈ (validateTransactionRequest ⟨"", -5⟩).2 ∧
    (validateTransactionRequest ⟨"", -5⟩).2.length = 2 :=
  ⟨(c4_validate_two_field_accumulation ⟨"", -5⟩ rfl (by norm_num)).1,
   (c4_validate_two_field_accumulation ⟨"", -5⟩ rfl (by norm_num)).2.1,
   (c4_validate_two_field_accumulation ⟨"", -5⟩ rfl (by norm_num)).2.2.1⟩

/-- C6 witness: the reconnect schedule evaluated at concrete attempt
numbers — delays 1000·1 … 1000·5, strictly increasing, then no 6th retry. -/
theorem c6_reconnect_backoff_witness :
    nthDelay 1 = some (reconnectDelay * 1) ∧ nthDelay 5 = some (reconnectDelay * 5) ∧
    reconnectDelay * 4 < reconnectDelay * 5 ∧ nthDelay 6 = none ∧ onOpenReset 3 = 0 :=
  ⟨c6_reconnect_backoff.1 1 (by decide) (by decide),
   c6_reconnect_backoff.1 5 (by decide) (by decide),
   c6_reconnect_backoff.2.1 4 5 (by decide) (by decide) (by decide),
   c6_reconnect_backoff.2.2.1 6 (by decide),
   c6_reconnect_backoff.2.2.2 3⟩
